import Mathlib

-- Verification of CategorizeFeatureGeometry.py (feature_categorization repository).
-- The script is shallowly embedded: Python strings become Lean String values
-- (Python single-character str.replace is per-character substitution on the
-- code-point list), the arcpy engine is modelled as a state of existing
-- workspace dataset names plus a trace of engine calls, and Python exceptions
-- become error values threaded through the pipeline.

set_option maxRecDepth 4096

-- Named characters (kept as defs so that character handling is uniform).

def squoteChar : Char := Char.ofNat 39

def dquoteChar : Char := Char.ofNat 34

def bslashChar : Char := Char.ofNat 92

def spaceChar : Char := Char.ofNat 32

def underscoreChar : Char := Char.ofNat 95

def rChar : Char := Char.ofNat 114

def newlineChar : Char := Char.ofNat 10

-- Python's string.punctuation constant: the 32 ASCII punctuation characters.
def python_string_punctuation : String :=
  "!\"#$%&\x27()*+,-./:;<=>?@[\\]^_`\x7b|\x7d~"

-- string.punctuation.replace('_', ''): removing a single character is a filter.
def punct_no_underscore : String :=
  String.mk (python_string_punctuation.data.filter (fun c => c ≠ underscoreChar))

-- Python slicing s[:n] by code points.
def strTake (s : String) (n : Nat) : String :=
  String.mk (s.data.take n)

def space_to_underscore (c : Char) : Char :=
  if c = spaceChar then underscoreChar else c

-- Python str.upper(): uppercase each code point.
def strToUpper (s : String) : String :=
  String.mk (s.data.map Char.toUpper)

-- Loop body of __validate_output_field_name, lines 197-198:
--   for i in string.punctuation.replace('_',''):
--       self.output_field = self.output_field.replace(i, '')
-- Each iteration deletes one character everywhere, i.e. filters it out.
def strip_punctuation (s : String) : String :=
  String.mk (punct_no_underscore.data.foldl
    (fun acc c => acc.filter (fun a => a ≠ c)) s.data)

-- Python substring test `sub in s`.
def strContains (s sub : String) : Bool :=
  decide (sub.data <:+: s.data)

-- __validate_output_field_name (lines 195-210).  self.output_field[0] raises
-- IndexError on an empty string, modelled by the none branch.
def validate_output_field_name
    (output_field workspace output_features : String) : Option String :=
  let s1 := strip_punctuation output_field
  match s1.data with
  | [] => none
  | c :: _ =>
    let s2 := if c.isDigit then "Field_" ++ s1 else s1
    let s3 := if spaceChar ∈ s2.data
              then String.mk (s2.data.map space_to_underscore) else s2
    if (workspace = "in_memory" ∨ strContains workspace (".gdb") = true) ∧
        strContains output_features (".shp") = false
    then some (strTake s3 64)
    else some (strTake s3 10)

-- Modelled from the claim wording (refinement reference for C1): strip all
-- punctuation except underscore, prefix the literal when the first remaining
-- character is a digit, replace every space with underscore, truncate to 64
-- for a long-name-capable workspace and to 10 otherwise.
def sanitize_spec (output_field workspace output_features : String) : Option String :=
  let s1 := String.mk (output_field.data.filter
    (fun c => ¬ c ∈ punct_no_underscore.data))
  match s1.data with
  | [] => none
  | c :: _ =>
    let s2 := if c.isDigit then "Field_" ++ s1 else s1
    let s3 := String.mk (s2.data.map space_to_underscore)
    if (workspace = "in_memory" ∨ strContains workspace (".gdb") = true) ∧
        strContains output_features (".shp") = false
    then some (strTake s3 64)
    else some (strTake s3 10)

-- Category values are Python str or numeric values (version 3.0 supports both).
inductive Value where
  | text (s : String)
  | num (n : Int)
deriving DecidableEq

-- Python str() rendering of a category value.
def valueStr : Value → String
  | Value.text s => s
  | Value.num n => toString n

-- Field description as returned by arcpy.ListFields for the division dataset.
structure DivisionFieldProps where
  field_name : String
  field_type : String
  field_length : Int
  field_precision : Int
  field_scale : Int
deriving DecidableEq

-- Output field keyword set after __set_output_field_properties: entries whose
-- value was falsy (0 for the numeric entries) have been removed.
structure OutputFieldProps where
  field_name : String
  field_type : String
  field_length : Option Int
  field_precision : Option Int
  field_scale : Option Int
deriving DecidableEq

-- __get_division_field_properties (lines 104-113): returns the matching
-- field's properties; falls off the loop end (Python None) when absent.
def get_division_field_properties (fields : List DivisionFieldProps)
    (division_field : String) : Option DivisionFieldProps :=
  fields.find? (fun f => f.field_name = division_field)

-- __set_output_field_properties (lines 120-134): zero-valued entries are
-- mapped to None and popped; the type token is uppercased (KeyError if the
-- type entry itself was falsy, i.e. the empty string); the name entry is
-- overwritten with the (already sanitized) user-supplied output field name.
def set_output_field_properties (div : DivisionFieldProps)
    (sanitized_output_field : String) : Option OutputFieldProps :=
  if div.field_type = "" then none
  else some
    { field_name := sanitized_output_field
      field_type := strToUpper div.field_type
      field_length := if div.field_length = 0 then none else some div.field_length
      field_precision := if div.field_precision = 0 then none else some div.field_precision
      field_scale := if div.field_scale = 0 then none else some div.field_scale }

-- Failure modes of the schema-derivation stage.  The source defines no
-- FieldNotFoundError anywhere; the constructor exists only so that the spec's
-- named error is expressible.
inductive SchemaError where
  | fieldNotFound
  | noneTypeNotIterable
  | keyErrorFieldType
deriving DecidableEq

deriving instance DecidableEq for Except

-- Schema derivation as executed by __init__ lines 83-85: a missing division
-- field leaves division_field_properties = None and the dict comprehension in
-- __set_output_field_properties then raises TypeError (iterating None).
def derive_output_schema (fields : List DivisionFieldProps)
    (division_field sanitized_output_field : String) :
    Except SchemaError OutputFieldProps :=
  match get_division_field_properties fields division_field with
  | none => Except.error SchemaError.noneTypeNotIterable
  | some div =>
    match set_output_field_properties div sanitized_output_field with
    | none => Except.error SchemaError.keyErrorFieldType
    | some p => Except.ok p

-- Python "s.replace('\'', '\'\'')": every single quote becomes two.
def py_replace_quote_doubled (l : List Char) : List Char :=
  l.flatMap (fun c => if c = squoteChar then [squoteChar, squoteChar] else [c])

-- __validate_criteria (lines 152-161) acting on one criteria entry.  For a
-- STRING-typed division field the stored value (a Python str) has embedded
-- quotes doubled and is wrapped in single quotes; numeric values would lack
-- the .replace method (none branch), and non-STRING types are left untouched.
def validate_criterion (field_type_upper : String) (v : Value) : Option Value :=
  if field_type_upper = "STRING" then
    match v with
    | Value.text s =>
      some (Value.text (String.mk
        (squoteChar :: (py_replace_quote_doubled s.data ++ [squoteChar]))))
    | Value.num _ => none
  else some v

-- PartitionPlan: one entry of self.parameter_dictionary (lines 143-149).
structure Plan where
  category : Value
  category_file : String
  division_file : String
  criteria : Value
deriving DecidableEq

-- Intermediate artifact names (string interpolation of ordinal and timestamp
-- as in the source).

def category_file_name (i : Nat) (ts : String) : String :=
  "tmp_cat_" ++ toString i ++ "_" ++ ts

def division_file_name (i : Nat) (ts : String) : String :=
  "tmp_div_" ++ toString i ++ "_" ++ ts

def replicated_target_name (ts : String) : String :=
  "tmp_rep_" ++ ts

def target_layer_name (ts : String) : String :=
  "tmp_lyr_" ++ ts

def select_layer_name (ts : String) : String :=
  "tmp_sel_lyr_" ++ ts

def temporary_output_name (ts : String) : String :=
  "tmp_out_" ++ ts

def uncategorized_name (ts : String) : String :=
  "tmp_unc_fea_" ++ ts

def deduplicated_name (ts : String) : String :=
  "tmp_ded_" ++ ts

-- __get_unique_attributes (lines 96-101): a Python set of the division-field
-- values, i.e. the finite set of distinct values, with no inherent order.
def get_unique_attributes (rows : List Value) : Finset Value :=
  rows.toFinset

-- An admissible result of Python's list(attribute_set): some duplicate-free
-- enumeration of exactly the distinct values; Python does not specify which.
def IsSetListing (l rows : List Value) : Prop :=
  l.Nodup ∧ (∀ a ∈ l, a ∈ rows) ∧ (∀ a ∈ rows, a ∈ l)

-- __create_parameter_dictionary (lines 143-149), applied to the enumeration
-- order that list(self.attribute_set) happened to produce.
def create_parameter_dictionary (attribute_list : List Value) (timestamp : String) :
    List Plan :=
  attribute_list.enum.map (fun p =>
    { category := p.2
      category_file := category_file_name p.1 timestamp
      division_file := division_file_name p.1 timestamp
      criteria := p.2 })

-- Field description as returned by arcpy.ListFields on the accumulated output.
structure FieldInfo where
  name : String
  type : String
deriving DecidableEq

-- Line 289 of the source.
def ignore_field_types : List String :=
  ["Geometry", "GlobalID", "GUID", "OID"]

-- Lines 292-296: the source collects {field.name or None} into a Python set,
-- then set.remove(None) (KeyError when no field had an ignored type, the none
-- branch) and converts to a list.  Set multiplicity and iteration order are
-- immaterial to the dissolve key, so a filtered name list stands in for it.
def deduplication_fields (fields : List FieldInfo) : Option (List String) :=
  if ∃ f ∈ fields, f.type ∈ ignore_field_types then
    some ((fields.filter (fun f => ¬ f.type ∈ ignore_field_types)).map FieldInfo.name)
  else none

-- Line 257: expression='{}{}{}'.format('r"', category, '"'), i.e. the Python
-- source text r"<category>".
def stamp_expression (v : Value) : String :=
  String.mk (rChar :: dquoteChar :: ((valueStr v).data ++ [dquoteChar]))

-- Scanner for the body of a single-line double-quoted Python raw string
-- literal: a backslash keeps itself and the next source character (and
-- prevents that character from closing the literal); an unescaped double
-- quote closes it; an unescaped literal newline is a SyntaxError (the
-- tokenizer reaches end of line inside the literal).  Returns the literal's
-- value and the remaining source text.
def scanRaw : List Char → Option (List Char × List Char)
  | [] => none
  | c :: rest =>
    if c = dquoteChar then some ([], rest)
    else if c = bslashChar then
      match rest with
      | [] => none
      | d :: rest' =>
        match scanRaw rest' with
        | some (v, r) => some (c :: d :: v, r)
        | none => none
    else if c = newlineChar then none
    else
      match scanRaw rest with
      | some (v, r) => some (c :: v, r)
      | none => none

-- A character sequence embeds verbatim in a single-line raw literal exactly
-- when every double quote and every newline in it is consumed by an
-- immediately preceding backslash escape and no backslash dangles at the
-- end to swallow the closing quote.
def rawLiteralSafe : List Char → Bool
  | [] => true
  | c :: rest =>
    if c = dquoteChar then false
    else if c = bslashChar then
      match rest with
      | [] => false
      | _ :: rest' => rawLiteralSafe rest'
    else if c = newlineChar then false
    else rawLiteralSafe rest

-- CPython evaluation of an expression of the shape produced by line 257: it
-- must be exactly one raw string literal; leftover source text or an
-- unterminated literal is a SyntaxError (none).
def pyEvalRawStrLiteral (expr : String) : Option String :=
  match expr.data with
  | a :: b :: rest =>
    if a = rChar ∧ b = dquoteChar then
      match scanRaw rest with
      | some (v, r) => if r = [] then some (String.mk v) else none
      | none => none
    else none
  | _ => none

-- Engine calls issued by the script, recorded as trace events.  The
-- calculateField event records the value the evaluated expression assigns.
inductive Event where
  | selectDivision (out whereClause : String)
  | clip (src clipFeatures out : String)
  | selectByLocation (layer reference : String)
  | makeLayer (src out : String)
  | copyFeatures (src out : String)
  | appendData (src target : String)
  | calculateField (table fieldName value : String)
  | clearSelection (layer : String)
  | erase (src eraseFeatures out : String)
  | dissolve (src out : String) (groupFields : List String)
  | deleteData (name : String)
  | addField (table : String)
deriving DecidableEq

inductive EngineError where
  | datasetNotFound (name : String)
  | calcFieldSyntax (expr : String)
  | keyError
deriving DecidableEq

-- Workspace model: the names of feature classes existing in the current
-- workspace, plus the trace of issued engine calls.
structure RunState where
  ws : List String
  trace : List Event
deriving DecidableEq

def engineLog (st : RunState) (e : Event) : RunState :=
  { ws := st.ws, trace := st.trace ++ [e] }

def engineCreate (st : RunState) (name : String) (e : Event) : RunState :=
  { ws := name :: st.ws, trace := st.trace ++ [e] }

def engineDeleteName (st : RunState) (name : String) : RunState :=
  { ws := st.ws.erase name, trace := st.trace ++ [Event.deleteData name] }

-- Sequencing with Python exception semantics: a raised error skips the rest
-- but keeps the side effects already performed.
def stepOk (r : RunState × Option EngineError)
    (f : RunState → RunState × Option EngineError) : RunState × Option EngineError :=
  match r with
  | (st, none) => f st
  | (st, some e) => (st, some e)

-- Static run configuration distilled from the object's attributes once the
-- setup stages (lines 68-88) have computed them.
structure Config where
  target_features : String
  division_features : String
  division_field : String
  output_features : String
  output_field_name : String
  overrun : Bool
  include_uncategorized : Bool
  workspace : String
  timestamp : String
  plans : List Plan
  output_fields : List FieldInfo
deriving DecidableEq

def Config.target_layer (cfg : Config) : String :=
  target_layer_name cfg.timestamp

-- Loop body of __categorize_target_layer (lines 218-270) for one category.
-- AddFieldDelimiters is engine-supplied; it is modelled as the bare field
-- name (its geodatabase behaviour).
def process_plan (cfg : Config) (st : RunState) (p : Plan) :
    RunState × Option EngineError :=
  let whereClause := cfg.division_field ++ " = " ++ valueStr p.criteria
  let st := engineCreate st p.division_file
    (Event.selectDivision p.division_file whereClause)
  let st :=
    if cfg.overrun = false then
      engineCreate st p.category_file
        (Event.clip cfg.target_layer p.division_file p.category_file)
    else
      let sel := select_layer_name cfg.timestamp
      let st := engineLog st (Event.selectByLocation cfg.target_layer p.division_file)
      let st := engineLog st (Event.makeLayer cfg.target_layer sel)
      let st := engineCreate st p.category_file (Event.copyFeatures sel p.category_file)
      engineLog st (Event.deleteData sel)
  match pyEvalRawStrLiteral (stamp_expression p.category) with
  | none => (st, some (EngineError.calcFieldSyntax (stamp_expression p.category)))
  | some v =>
    let st := engineLog st
      (Event.calculateField p.category_file cfg.output_field_name v)
    let out := temporary_output_name cfg.timestamp
    if out ∈ st.ws then
      (engineLog st (Event.appendData p.category_file out), none)
    else
      (engineCreate st out (Event.copyFeatures p.category_file out), none)

-- The for-loop over parameter_dictionary keys, in key order.
def run_plans (cfg : Config) (st : RunState) : RunState × Option EngineError :=
  cfg.plans.foldl (fun r p => stepOk r (fun st1 => process_plan cfg st1 p)) (st, none)

-- Lines 272-285: uncategorized recovery.  Erase_analysis requires its
-- erase_features dataset to exist; when the accumulation was never created
-- the call fails with an engine error.
def recover_uncategorized (cfg : Config) (st : RunState) :
    RunState × Option EngineError :=
  if cfg.include_uncategorized then
    let out := temporary_output_name cfg.timestamp
    let st := engineLog st (Event.clearSelection cfg.target_layer)
    if out ∈ st.ws then
      let unc := uncategorized_name cfg.timestamp
      let st := engineCreate st unc (Event.erase cfg.target_layer out unc)
      (engineLog st (Event.appendData unc out), none)
    else (st, some (EngineError.datasetNotFound out))
  else (st, none)

-- Lines 287-305: arcpy.ListFields on the accumulation (fails when it does not
-- exist), dissolve on the non-ignored fields, and the final copy to the
-- user-supplied output.
def dedup_and_output (cfg : Config) (st : RunState) :
    RunState × Option EngineError :=
  let out := temporary_output_name cfg.timestamp
  if out ∈ st.ws then
    match deduplication_fields cfg.output_fields with
    | none => (st, some EngineError.keyError)
    | some dfields =>
      let ded := deduplicated_name cfg.timestamp
      let st := engineCreate st ded (Event.dissolve out ded dfields)
      (engineCreate st cfg.output_features
        (Event.copyFeatures ded cfg.output_features), none)
  else (st, some (EngineError.datasetNotFound out))

-- __categorize_target_layer (lines 213-305).
def categorize_target_layer (cfg : Config) (st : RunState) :
    RunState × Option EngineError :=
  stepOk (stepOk (run_plans cfg st) (fun st1 => recover_uncategorized cfg st1))
    (fun st2 => dedup_and_output cfg st2)

-- __create_target_layer (lines 164-174).
def create_target_layer (cfg : Config) (st : RunState) : RunState :=
  let rep := replicated_target_name cfg.timestamp
  let st := engineCreate st rep (Event.copyFeatures cfg.target_features rep)
  engineLog st (Event.makeLayer rep cfg.target_layer)

-- Setup work of __init__ that precedes categorization (lines 89-90).
def setup_stages (cfg : Config) (st : RunState) : RunState :=
  engineLog (create_target_layer cfg st) (Event.addField cfg.target_layer)

-- The ArcPy wildcard 'tmp_*<timestamp>*' used by cleanup (line 188): a
-- literal tmp_ prefix, then anything, the timestamp, then anything.
def cleanup_glob (ts name : String) : Prop :=
  ∃ a b : String, name = "tmp_" ++ a ++ ts ++ b

-- Executable form of that wildcard match.
def globMatch (ts name : String) : Bool :=
  decide (name.data.take 4 = ("tmp_" : String).data) &&
    decide (ts.data <:+: name.data.drop 4)

-- __delete_intermediary_data (lines 183-192): in a persistent workspace,
-- delete every feature class matching the run's wildcard; for in_memory,
-- delete the whole transient workspace.
def delete_intermediary_data (cfg : Config) (st : RunState) : RunState :=
  if cfg.workspace ≠ "in_memory" then
    (st.ws.filter (fun nm => globMatch cfg.timestamp nm)).foldl engineDeleteName st
  else engineLog st (Event.deleteData cfg.workspace)

-- __init__ lines 89-93: straight-line sequencing with no exception handler;
-- an error raised in categorization propagates and the cleanup call is never
-- reached.
def run_pipeline (cfg : Config) (st0 : RunState) : RunState × Option EngineError :=
  match categorize_target_layer cfg (setup_stages cfg st0) with
  | (st, some e) => (st, some e)
  | (st, none) => (delete_intermediary_data cfg st, none)

def isDeleteEvent : Event → Bool
  | Event.deleteData _ => true
  | _ => false

-- Concrete instances used by witnesses and counterexamples.

def ts0 : String := "12abc"

def cfgC4a : Config :=
  { target_features := "TGT", division_features := "DIV", division_field := "CAT"
    output_features := "OUT", output_field_name := "Category"
    overrun := false, include_uncategorized := true
    workspace := "C:/work.gdb", timestamp := ts0
    plans := []
    output_fields := [{ name := "OBJECTID", type := "OID" },
                      { name := "Shape", type := "Geometry" },
                      { name := "Category", type := "String" }] }

def cfgC4b : Config :=
  { cfgC4a with include_uncategorized := false }

def stEmpty : RunState := { ws := [], trace := [] }

def stInit : RunState := { ws := ["TGT", "DIV"], trace := [] }

def planC6 : Plan :=
  { category := Value.text ("North")
    category_file := category_file_name 0 ts0
    division_file := division_file_name 0 ts0
    criteria := Value.text (String.mk
      (squoteChar :: (("North" : String).data ++ [squoteChar]))) }

def cfgC6 : Config :=
  { cfgC4b with overrun := true, plans := [planC6] }

def fieldsC5 : List DivisionFieldProps :=
  [{ field_name := "OTHER", field_type := "String"
     field_length := 10, field_precision := 0, field_scale := 0 }]

def divC2 : DivisionFieldProps :=
  { field_name := "CAT", field_type := "String"
    field_length := 50, field_precision := 0, field_scale := 0 }

-- Helper lemmas about the string embedding.

theorem str_eq_of_data : ∀ {a b : String}, a.data = b.data → a = b := by
  intro a b h
  cases a
  cases b
  exact congrArg String.mk h

theorem str_data_append (a b : String) : (a ++ b).data = a.data ++ b.data := by
  cases a
  cases b
  rfl

theorem str_mk_data (s : String) : String.mk s.data = s := by
  cases s
  rfl

theorem foldl_remove_eq_filter (cs : List Char) : ∀ l : List Char,
    cs.foldl (fun acc c => acc.filter (fun a => a ≠ c)) l
      = l.filter (fun a => ¬ a ∈ cs) := by
  induction cs with
  | nil =>
    intro l
    simp
  | cons c cs ih =>
    intro l
    rw [List.foldl_cons, ih, List.filter_filter]
    apply List.filter_congr
    intro a _
    by_cases h1 : a = c <;> by_cases h2 : a ∈ cs <;> simp [h1, h2]

theorem strip_punctuation_eq (s : String) :
    strip_punctuation s
      = String.mk (s.data.filter (fun c => ¬ c ∈ punct_no_underscore.data)) := by
  unfold strip_punctuation
  rw [foldl_remove_eq_filter]

theorem map_space_id (l : List Char) (h : ¬ spaceChar ∈ l) :
    l.map space_to_underscore = l := by
  induction l with
  | nil => rfl
  | cons c l ih =>
    simp only [List.mem_cons] at h
    push_neg at h
    simp only [List.map_cons]
    rw [ih h.2]
    unfold space_to_underscore
    rw [if_neg]
    intro hc
    exact h.1 hc.symm

/-- C1: For every user-supplied output field name, the sanitized name is
computed by removing every punctuation character except underscore, then
prefixing the literal Field_ when the first remaining character is a digit,
then replacing every space with underscore, then truncating to 64 characters
when the workspace is in_memory or contains .gdb and the output features path
does not contain .shp, and truncating to 10 characters otherwise; in
particular "3 cost-area!" sanitizes to "Field_3_costarea" under a
long-name-capable workspace and to "Field_3_co" under a legacy workspace. -/
theorem C1_field_name_sanitization :
    (∀ name workspace output_features : String,
      validate_output_field_name name workspace output_features
        = sanitize_spec name workspace output_features)
  ∧ validate_output_field_name ("3 cost-area!") ("in_memory") ("out_fc")
      = some ("Field_3_costarea")
  ∧ validate_output_field_name ("3 cost-area!") ("D:/folder") ("out.shp")
      = some ("Field_3_co") := by
  refine ⟨?_, by decide, by decide⟩
  intro name workspace output_features
  unfold validate_output_field_name sanitize_spec
  rw [strip_punctuation_eq]
  generalize name.data.filter (fun c => ¬ c ∈ punct_no_underscore.data) = l
  cases l with
  | nil => rfl
  | cons c rest =>
    dsimp only
    have hs3 : ∀ s2 : String,
        (if spaceChar ∈ s2.data
          then String.mk (s2.data.map space_to_underscore) else s2)
          = String.mk (s2.data.map space_to_underscore) := by
      intro s2
      by_cases hsp : spaceChar ∈ s2.data
      · rw [if_pos hsp]
      · rw [if_neg hsp, map_space_id _ hsp, str_mk_data]
    rw [hs3]

theorem drop_zero_none_iff (x : Int) :
    ((if x = 0 then (none : Option Int) else some x) = none ↔ x = 0) := by
  by_cases hz : x = 0 <;> simp [hz]

theorem drop_zero_some_iff (x v : Int) :
    ((if x = 0 then (none : Option Int) else some x) = some v ↔ (x = v ∧ v ≠ 0)) := by
  by_cases hz : x = 0
  · simp [hz]
    omega
  · simp [hz]
    intro hv
    omega

/-- C2: For every division field, the derived output field specification
equals the division field's type, length, precision and scale with every
zero-valued entry removed (zero is treated as unset and omitted), the type
token uppercased, and the field name replaced by the sanitized user-supplied
output field name; no other entries are added or changed. -/
theorem C2_schema_round_trip :
    ∀ (div : DivisionFieldProps) (sanitized : String), div.field_type ≠ "" →
    ∃ props, set_output_field_properties div sanitized = some props ∧
      props.field_name = sanitized ∧
      props.field_type = strToUpper div.field_type ∧
      (props.field_length = none ↔ div.field_length = 0) ∧
      (∀ v, props.field_length = some v ↔ (div.field_length = v ∧ v ≠ 0)) ∧
      (props.field_precision = none ↔ div.field_precision = 0) ∧
      (∀ v, props.field_precision = some v ↔ (div.field_precision = v ∧ v ≠ 0)) ∧
      (props.field_scale = none ↔ div.field_scale = 0) ∧
      (∀ v, props.field_scale = some v ↔ (div.field_scale = v ∧ v ≠ 0)) := by
  intro div sanitized h
  refine ⟨_, by unfold set_output_field_properties; rw [if_neg h], rfl, rfl,
    drop_zero_none_iff _, fun v => drop_zero_some_iff _ v,
    drop_zero_none_iff _, fun v => drop_zero_some_iff _ v,
    drop_zero_none_iff _, fun v => drop_zero_some_iff _ v⟩

/-- C2 witness: the schema round trip evaluated on a concrete String division
field of length 50 with zero precision and scale. -/
theorem C2_schema_round_trip_witness :
    ∃ props, set_output_field_properties divC2 ("Category") = some props ∧
      props.field_name = "Category" ∧
      props.field_type = strToUpper divC2.field_type ∧
      (props.field_length = none ↔ divC2.field_length = 0) ∧
      (∀ v, props.field_length = some v ↔ (divC2.field_length = v ∧ v ≠ 0)) ∧
      (props.field_precision = none ↔ divC2.field_precision = 0) ∧
      (∀ v, props.field_precision = some v ↔ (divC2.field_precision = v ∧ v ≠ 0)) ∧
      (props.field_scale = none ↔ divC2.field_scale = 0) ∧
      (∀ v, props.field_scale = some v ↔ (divC2.field_scale = v ∧ v ≠ 0)) :=
  C2_schema_round_trip divC2 ("Category") (by decide)

/-- C3: A category value used in a partition filter criterion is, for a
text-typed division field, the value with embedded single quotes doubled and
wrapped in single-quote delimiters, and, for a numeric (non-text) division
field, used unquoted and unchanged. -/
theorem C3_criteria_quoting :
    (strToUpper ("String") = "STRING")
  ∧ (∀ s : String, validate_criterion ("STRING") (Value.text s)
      = some (Value.text (String.mk
          (squoteChar :: (py_replace_quote_doubled s.data ++ [squoteChar])))))
  ∧ (∀ (field_type_upper : String) (v : Value), field_type_upper ≠ "STRING" →
      validate_criterion field_type_upper v = some v) := by
  refine ⟨by decide, fun s => ?_, fun ft v h => ?_⟩
  · unfold validate_criterion
    rw [if_pos rfl]
  · unfold validate_criterion
    rw [if_neg h]

/-- C3 witness: a numeric criterion under a DOUBLE-typed division field is
passed through unchanged (and unquoted). -/
theorem C3_criteria_quoting_witness :
    validate_criterion ("DOUBLE") (Value.num 42) = some (Value.num 42) :=
  C3_criteria_quoting.2.2 ("DOUBLE") (Value.num 42) (by decide)

/-- C5 counterexample: with a division dataset whose only field is OTHER and
the division field named CAT, schema derivation does not fail with
FieldNotFoundError; the lookup silently yields None and the failure is the
downstream TypeError from iterating None. -/
theorem C5_counterexample :
    derive_output_schema fieldsC5 ("CAT") ("Category")
        = Except.error SchemaError.noneTypeNotIterable
  ∧ derive_output_schema fieldsC5 ("CAT") ("Category")
        ≠ Except.error SchemaError.fieldNotFound := by
  constructor <;> decide

/-- C5 amended: when the named division field does not exist on the division
dataset, __get_division_field_properties returns None without raising any
error, and the schema-derivation stage then fails with the TypeError raised
by iterating None in __set_output_field_properties; no FieldNotFoundError
exists in the program. -/
theorem C5_amended :
    ∀ (fields : List DivisionFieldProps) (division_field sanitized : String),
    (∀ f ∈ fields, f.field_name ≠ division_field) →
    get_division_field_properties fields division_field = none ∧
    derive_output_schema fields division_field sanitized
      = Except.error SchemaError.noneTypeNotIterable := by
  intro fields df sanitized h
  have hfind : get_division_field_properties fields df = none := by
    unfold get_division_field_properties
    rw [List.find?_eq_none]
    intro x hx
    simp [h x hx]
  refine ⟨hfind, ?_⟩
  unfold derive_output_schema
  rw [hfind]

/-- C5 witness: the amended behaviour evaluated on the concrete
single-field dataset. -/
theorem C5_amended_witness :
    get_division_field_properties fieldsC5 ("CAT") = none ∧
    derive_output_schema fieldsC5 ("CAT") ("Category")
      = Except.error SchemaError.noneTypeNotIterable :=
  C5_amended fieldsC5 ("CAT") ("Category") (by decide)

theorem scanRaw_close_iff_fuel :
    ∀ (n : Nat) (l : List Char), l.length ≤ n →
    (scanRaw (l ++ [dquoteChar]) = some (l, []) ↔ rawLiteralSafe l = true) := by
  intro n
  induction n with
  | zero =>
    intro l hlen
    have hnil : l = [] := List.eq_nil_of_length_eq_zero (Nat.le_zero.mp hlen)
    subst hnil
    simp [scanRaw, rawLiteralSafe]
  | succ n ih =>
    intro l hlen
    cases l with
    | nil => simp [scanRaw, rawLiteralSafe]
    | cons c rest =>
      rw [List.cons_append]
      unfold scanRaw rawLiteralSafe
      by_cases hq : c = dquoteChar
      · rw [if_pos hq, if_pos hq]
        simp
      · rw [if_neg hq, if_neg hq]
        by_cases hb : c = bslashChar
        · rw [if_pos hb, if_pos hb]
          cases rest with
          | nil => simp [scanRaw]
          | cons d rest' =>
            rw [List.cons_append]
            dsimp only
            have hlen' : rest'.length ≤ n := by
              simp only [List.length_cons] at hlen
              omega
            have hiff := ih rest' hlen'
            constructor
            · intro h
              apply hiff.mp
              rcases hs : scanRaw (rest' ++ [dquoteChar]) with _ | ⟨w, r⟩
              · rw [hs] at h
                simp at h
              · rw [hs] at h
                dsimp only at h
                injection h with h'
                have hw : w = rest' := by
                  have h1 := congrArg Prod.fst h'
                  simpa using h1
                have hr : r = ([] : List Char) := by
                  have h2 := congrArg Prod.snd h'
                  simpa using h2
                rw [hw, hr]
            · intro h
              rw [hiff.mpr h]
        · rw [if_neg hb, if_neg hb]
          by_cases hn : c = newlineChar
          · rw [if_pos hn, if_pos hn]
            simp
          · rw [if_neg hn, if_neg hn]
            have hlen' : rest.length ≤ n := by
              simp only [List.length_cons] at hlen
              omega
            have hiff := ih rest hlen'
            constructor
            · intro h
              apply hiff.mp
              rcases hs : scanRaw (rest ++ [dquoteChar]) with _ | ⟨w, r⟩
              · rw [hs] at h
                simp at h
              · rw [hs] at h
                dsimp only at h
                injection h with h'
                have hw : w = rest := by
                  have h1 := congrArg Prod.fst h'
                  simpa using h1
                have hr : r = ([] : List Char) := by
                  have h2 := congrArg Prod.snd h'
                  simpa using h2
                rw [hw, hr]
            · intro h
              rw [hiff.mpr h]

theorem scanRaw_close_iff (l : List Char) :
    scanRaw (l ++ [dquoteChar]) = some (l, []) ↔ rawLiteralSafe l = true :=
  scanRaw_close_iff_fuel l.length l le_rfl

/-- C7 counterexample: the category value containing a double quote, stamped
by line 257 as the expression r"say "hi"", is a malformed Python expression:
evaluation fails, so the feature does not receive a value equal to the
category value; the value is in fact produced by expression evaluation, not
by literal assignment. -/
theorem C7_counterexample :
    pyEvalRawStrLiteral (stamp_expression (Value.text ("say \"hi\""))) = none
  ∧ ¬ pyEvalRawStrLiteral (stamp_expression (Value.text ("say \"hi\"")))
        = some (valueStr (Value.text ("say \"hi\""))) := by
  constructor <;> decide

/-- C7 amended: the output-field value is assigned by evaluating the Python
raw-string expression r"<category>" (expression_type PYTHON_9.3), not as a
literal; the evaluated value equals the category value exactly when the
value's string form is raw-literal-safe: every double quote and every newline
in it is consumed by an immediately preceding backslash escape, and no
backslash dangles at the end.  A bare double quote, as in the counterexample,
makes the expression malformed and the stage fail, while an escaped one still
round-trips. -/
theorem C7_amended :
    ∀ v : Value,
      pyEvalRawStrLiteral (stamp_expression v) = some (valueStr v)
        ↔ rawLiteralSafe (valueStr v).data = true := by
  intro v
  unfold pyEvalRawStrLiteral stamp_expression
  dsimp only
  rw [if_pos ⟨rfl, rfl⟩]
  rcases hs : scanRaw ((valueStr v).data ++ [dquoteChar]) with _ | ⟨w, r⟩
  · constructor
    · intro h
      simp at h
    · intro h
      rw [(scanRaw_close_iff _).mpr h] at hs
      exact Option.noConfusion hs
  · dsimp only
    constructor
    · intro h
      cases r with
      | nil =>
        rw [if_pos rfl] at h
        injection h with h'
        have hw : w = (valueStr v).data := by
          have h1 := congrArg String.data h'
          simpa using h1
        apply (scanRaw_close_iff _).mp
        rw [hs, hw]
      | cons x xs =>
        rw [if_neg (by simp)] at h
        exact Option.noConfusion h
    · intro h
      have h2 := (scanRaw_close_iff _).mpr h
      rw [h2] at hs
      injection hs with hs'
      have hw : w = (valueStr v).data := by
        have h1 := congrArg Prod.fst hs'
        simpa using h1.symm
      have hr : r = ([] : List Char) := by
        have h2r := congrArg Prod.snd hs'
        simpa using h2r.symm
      subst hw
      subst hr
      rw [if_pos rfl, str_mk_data]

/-- C7 witness: the precise stamping characterization applied at the
quote-free category value North, whose raw-string expression evaluates back
to the value itself. -/
theorem C7_amended_witness :
    pyEvalRawStrLiteral (stamp_expression (Value.text ("North")))
      = some (valueStr (Value.text ("North"))) :=
  (C7_amended (Value.text ("North"))).mpr (by decide)

theorem stepOk_none (st : RunState) (f : RunState → RunState × Option EngineError) :
    stepOk (st, none) f = f st := rfl

theorem stepOk_some (st : RunState) (e : EngineError)
    (f : RunState → RunState × Option EngineError) :
    stepOk (st, some e) f = (st, some e) := rfl

theorem stepOk_ok {r : RunState × Option EngineError}
    {f : RunState → RunState × Option EngineError} {st' : RunState}
    (h : stepOk r f = (st', none)) :
    ∃ stm, r = (stm, none) ∧ f stm = (st', none) := by
  obtain ⟨st, e⟩ := r
  cases e with
  | none => exact ⟨st, rfl, h⟩
  | some err =>
    rw [stepOk_some] at h
    exact absurd (congrArg Prod.snd h) (by simp)

theorem dedup_and_output_ok {cfg : Config} {st st' : RunState}
    (h : dedup_and_output cfg st = (st', none)) :
    ∃ dfields, deduplication_fields cfg.output_fields = some dfields ∧
      Event.dissolve (temporary_output_name cfg.timestamp)
        (deduplicated_name cfg.timestamp) dfields ∈ st'.trace := by
  by_cases hmem : temporary_output_name cfg.timestamp ∈ st.ws
  · rcases hd : deduplication_fields cfg.output_fields with _ | dfields
    · simp only [dedup_and_output, if_pos hmem, hd] at h
      exact absurd (congrArg Prod.snd h) (by simp)
    · simp only [dedup_and_output, if_pos hmem, hd] at h
      refine ⟨dfields, rfl, ?_⟩
      have hst : st' = engineCreate (engineCreate st (deduplicated_name cfg.timestamp)
          (Event.dissolve (temporary_output_name cfg.timestamp)
            (deduplicated_name cfg.timestamp) dfields))
          cfg.output_features
          (Event.copyFeatures (deduplicated_name cfg.timestamp) cfg.output_features) :=
        (congrArg Prod.fst h).symm
      rw [hst]
      simp [engineCreate]
  · simp only [dedup_and_output, if_neg hmem] at h
    exact absurd (congrArg Prod.snd h) (by simp)

/-- C4 counterexample: with zero distinct category values the run does abort,
in both include-uncategorized modes, because the accumulation dataset was
never created: the erase step, respectively the field listing before the
dissolve, fails with a dataset-not-found engine error. -/
theorem C4_counterexample :
    (categorize_target_layer cfgC4a stEmpty).2
        = some (EngineError.datasetNotFound (temporary_output_name ts0))
  ∧ (categorize_target_layer cfgC4b stEmpty).2
        = some (EngineError.datasetNotFound (temporary_output_name ts0)) := by
  constructor <;> decide

/-- C4 amended: when the division dataset yields zero distinct category
values, the per-category loop never creates the accumulation dataset, and the
run aborts with a dataset-not-found engine error: at the erase step when
include_uncategorized is enabled, at the field listing before the dissolve
otherwise; it does not degrade to an empty or leftover-only output. -/
theorem C4_amended :
    ∀ (cfg : Config) (st : RunState), cfg.plans = [] →
    ¬ temporary_output_name cfg.timestamp ∈ st.ws →
    (categorize_target_layer cfg st).2
      = some (EngineError.datasetNotFound (temporary_output_name cfg.timestamp)) := by
  intro cfg st hp hmem
  have hplans : run_plans cfg st = (st, none) := by
    unfold run_plans
    rw [hp]
    rfl
  unfold categorize_target_layer
  rw [hplans, stepOk_none]
  cases hu : cfg.include_uncategorized with
  | true =>
    have hrec : recover_uncategorized cfg st
        = (engineLog st (Event.clearSelection cfg.target_layer),
           some (EngineError.datasetNotFound (temporary_output_name cfg.timestamp))) := by
      simp only [recover_uncategorized, hu, if_true]
      rw [if_neg]
      simpa [engineLog] using hmem
    rw [hrec, stepOk_some]
  | false =>
    have hrec : recover_uncategorized cfg st = (st, none) := by
      simp [recover_uncategorized, hu]
    rw [hrec, stepOk_none]
    simp only [dedup_and_output]
    rw [if_neg hmem]

/-- C4 witness: the amended abort behaviour evaluated on the concrete
zero-category run with uncategorized recovery enabled. -/
theorem C4_amended_witness :
    (categorize_target_layer cfgC4a stEmpty).2
      = some (EngineError.datasetNotFound (temporary_output_name cfgC4a.timestamp)) :=
  C4_amended cfgC4a stEmpty rfl (by decide)

/-- C6: The deduplication step groups the accumulated output by exactly those
fields whose type is neither geometry nor an identity-class type (object ID,
global ID, GUID), and the dissolve runs on every run that completes,
unconditionally in the configuration (in particular for overrun true as well
as false). -/
theorem C6_dedup_grouping :
    (∀ (fields : List FieldInfo) (dfields : List String) (n : String),
      deduplication_fields fields = some dfields →
      (n ∈ dfields ↔ ∃ f ∈ fields, f.name = n ∧ ¬ f.type ∈ ignore_field_types))
  ∧ (∀ (cfg : Config) (st st' : RunState),
      categorize_target_layer cfg st = (st', none) →
      ∃ dfields, deduplication_fields cfg.output_fields = some dfields ∧
        Event.dissolve (temporary_output_name cfg.timestamp)
          (deduplicated_name cfg.timestamp) dfields ∈ st'.trace) := by
  constructor
  · intro fields dfields n hd
    unfold deduplication_fields at hd
    split at hd
    · injection hd with hd'
      subst hd'
      constructor
      · intro hn
        rw [List.mem_map] at hn
        obtain ⟨f, hf, hfn⟩ := hn
        rw [List.mem_filter] at hf
        refine ⟨f, hf.1, hfn, ?_⟩
        simpa using hf.2
      · rintro ⟨f, hf, hfn, hft⟩
        rw [List.mem_map]
        exact ⟨f, List.mem_filter.mpr ⟨hf, by simpa using hft⟩, hfn⟩
    · exact Option.noConfusion hd
  · intro cfg st st' h
    unfold categorize_target_layer at h
    obtain ⟨st2, h2, hded⟩ := stepOk_ok h
    exact dedup_and_output_ok hded

/-- C6 witness: a completing one-category overrun run whose trace contains
the dissolve keyed on the non-identity, non-geometry fields. -/
theorem C6_dedup_grouping_witness :
    ∃ dfields, deduplication_fields cfgC6.output_fields = some dfields ∧
      Event.dissolve (temporary_output_name cfgC6.timestamp)
        (deduplicated_name cfgC6.timestamp) dfields
        ∈ (categorize_target_layer cfgC6 stInit).1.trace :=
  C6_dedup_grouping.2 cfgC6 stInit (categorize_target_layer cfgC6 stInit).1 (by decide)

/-- C8 counterexample: a run that aborts in the categorization stage after
the replicated target feature class was created performs no deletion at all:
the straight-line constructor never reaches __delete_intermediary_data. -/
theorem C8_counterexample :
    (run_pipeline cfgC4b stInit).2
        = some (EngineError.datasetNotFound (temporary_output_name ts0))
  ∧ Event.copyFeatures ("TGT") (replicated_target_name ts0)
      ∈ (run_pipeline cfgC4b stInit).1.trace
  ∧ (run_pipeline cfgC4b stInit).1.trace.all (fun e => !(isDeleteEvent e)) = true := by
  refine ⟨by decide, by decide, by decide⟩

/-- C8 amended: cleanup of scratch artifacts runs exactly when every earlier
stage succeeds: __init__ is straight-line with no exception handler, so an
error in categorization propagates immediately, the returned state is the
error state untouched, and __delete_intermediary_data is never invoked. -/
theorem C8_amended :
    ∀ (cfg : Config) (st0 : RunState),
    (∀ (st : RunState) (e : EngineError),
      categorize_target_layer cfg (setup_stages cfg st0) = (st, some e) →
      run_pipeline cfg st0 = (st, some e))
  ∧ (∀ st : RunState,
      categorize_target_layer cfg (setup_stages cfg st0) = (st, none) →
      run_pipeline cfg st0 = (delete_intermediary_data cfg st, none)) := by
  intro cfg st0
  constructor
  · intro st e h
    unfold run_pipeline
    rw [h]
  · intro st h
    unfold run_pipeline
    rw [h]

/-- C8 witness: the amended no-cleanup-on-abort behaviour evaluated on the
concrete failing zero-category run. -/
theorem C8_amended_witness :
    run_pipeline cfgC4b stInit
      = ((categorize_target_layer cfgC4b (setup_stages cfgC4b stInit)).1,
         some (EngineError.datasetNotFound (temporary_output_name ts0))) :=
  (C8_amended cfgC4b stInit).1
    (categorize_target_layer cfgC4b (setup_stages cfgC4b stInit)).1
    (EngineError.datasetNotFound (temporary_output_name ts0)) (by decide)

/-- C9 counterexample: duplicates are collapsed, but the ordinal assignment is
not determined by the division dataset: two admissible enumerations of the
same category set (Python set iteration order is unspecified) yield different
parameter dictionaries, hence different value-to-ordinal assignments. -/
theorem C9_counterexample :
    IsSetListing [Value.text ("A"), Value.text ("B")]
      [Value.text ("A"), Value.text ("B"), Value.text ("A")]
  ∧ IsSetListing [Value.text ("B"), Value.text ("A")]
      [Value.text ("A"), Value.text ("B"), Value.text ("A")]
  ∧ create_parameter_dictionary [Value.text ("A"), Value.text ("B")] ts0
      ≠ create_parameter_dictionary [Value.text ("B"), Value.text ("A")] ts0 := by
  refine ⟨?_, ?_, by decide⟩ <;>
    exact ⟨by decide, by decide, by decide⟩

/-- C9 amended: the Category Enumerator returns exactly the distinct division
field values (duplicates collapsed); the value-to-ordinal assignment is
determined by the enumeration order that list(set) happens to produce, which
Python leaves unspecified, so it is a function of the chosen listing, not of
the dataset alone: the i-th plan's category is the i-th listing element. -/
theorem C9_amended :
    (∀ (rows : List Value) (v : Value), v ∈ get_unique_attributes rows ↔ v ∈ rows)
  ∧ (∀ (l rows : List Value),
      IsSetListing l rows ↔ (l.Nodup ∧ l.toFinset = get_unique_attributes rows))
  ∧ (∀ (l : List Value) (ts : String),
      (create_parameter_dictionary l ts).map Plan.category = l) := by
  refine ⟨?_, ?_, ?_⟩
  · intro rows v
    simp [get_unique_attributes]
  · intro l rows
    unfold IsSetListing get_unique_attributes
    constructor
    · rintro ⟨hn, h1, h2⟩
      refine ⟨hn, ?_⟩
      apply Finset.ext
      intro a
      simp only [List.mem_toFinset]
      exact ⟨h1 a, h2 a⟩
    · rintro ⟨hn, he⟩
      refine ⟨hn, ?_, ?_⟩ <;> intro a ha
      · have hiff := Finset.ext_iff.mp he a
        simp only [List.mem_toFinset] at hiff
        exact hiff.mp ha
      · have hiff := Finset.ext_iff.mp he a
        simp only [List.mem_toFinset] at hiff
        exact hiff.mpr ha
  · intro l ts
    unfold create_parameter_dictionary
    rw [List.map_map]
    have hcomp : (Plan.category ∘ fun p : Nat × Value =>
        ({ category := p.2, category_file := category_file_name p.1 ts
           division_file := division_file_name p.1 ts, criteria := p.2 } : Plan))
        = Prod.snd := rfl
    rw [hcomp, List.enum_map_snd]

theorem foldl_engineDeleteName_trace :
    ∀ (l : List String) (st : RunState),
    (l.foldl engineDeleteName st).trace = st.trace ++ l.map Event.deleteData := by
  intro l
  induction l with
  | nil =>
    intro st
    simp
  | cons nm l ih =>
    intro st
    rw [List.foldl_cons, ih]
    simp [engineDeleteName]

/-- C10: Every intermediate feature-class name created during a run begins
with tmp_ and embeds the run timestamp, the cleanup wildcard in a persistent
workspace matches a name exactly when it has the tmp_ prefix followed by text
containing the timestamp, any match carries that prefix and timestamp, and
cleanup deletes exactly the existing workspace names matching the wildcard. -/
theorem C10_intermediary_naming :
    (∀ (ts : String) (i : Nat),
      cleanup_glob ts (category_file_name i ts) ∧
      cleanup_glob ts (division_file_name i ts) ∧
      cleanup_glob ts (replicated_target_name ts) ∧
      cleanup_glob ts (temporary_output_name ts) ∧
      cleanup_glob ts (uncategorized_name ts) ∧
      cleanup_glob ts (deduplicated_name ts))
  ∧ (∀ ts name : String, globMatch ts name = true ↔ cleanup_glob ts name)
  ∧ (∀ ts name : String, cleanup_glob ts name →
      ("tmp_" : String).data <+: name.data ∧ ts.data <:+: name.data)
  ∧ (∀ (cfg : Config) (st : RunState), cfg.workspace ≠ "in_memory" →
      (delete_intermediary_data cfg st).trace
        = st.trace ++ (st.ws.filter
            (fun nm => globMatch cfg.timestamp nm)).map Event.deleteData) := by
  have hmk : ∀ l : List Char, (String.mk l).data = l := fun l => rfl
  refine ⟨?_, ?_, ?_, ?_⟩
  · intro ts i
    have hcat : ("tmp_cat_" : String).data
        = ("tmp_" : String).data ++ ("cat_" : String).data := by decide
    have hdiv : ("tmp_div_" : String).data
        = ("tmp_" : String).data ++ ("div_" : String).data := by decide
    have hrep : ("tmp_rep_" : String).data
        = ("tmp_" : String).data ++ ("rep_" : String).data := by decide
    have hout : ("tmp_out_" : String).data
        = ("tmp_" : String).data ++ ("out_" : String).data := by decide
    have hunc : ("tmp_unc_fea_" : String).data
        = ("tmp_" : String).data ++ ("unc_fea_" : String).data := by decide
    have hded : ("tmp_ded_" : String).data
        = ("tmp_" : String).data ++ ("ded_" : String).data := by decide
    have hnil : ("" : String).data = [] := rfl
    refine ⟨⟨"cat_" ++ toString i ++ "_", "", ?_⟩,
            ⟨"div_" ++ toString i ++ "_", "", ?_⟩,
            ⟨"rep_", "", ?_⟩, ⟨"out_", "", ?_⟩,
            ⟨"unc_fea_", "", ?_⟩, ⟨"ded_", "", ?_⟩⟩ <;>
      apply str_eq_of_data <;>
      simp [category_file_name, division_file_name, replicated_target_name,
        temporary_output_name, uncategorized_name, deduplicated_name,
        str_data_append, hcat, hdiv, hrep, hout, hunc, hded, hnil]
  · intro ts name
    unfold globMatch cleanup_glob
    rw [Bool.and_eq_true, decide_eq_true_eq, decide_eq_true_eq]
    constructor
    · rintro ⟨h4, s, t, hst⟩
      refine ⟨String.mk s, String.mk t, ?_⟩
      apply str_eq_of_data
      simp only [str_data_append, hmk]
      calc name.data
          = name.data.take 4 ++ name.data.drop 4 := (List.take_append_drop 4 _).symm
        _ = ("tmp_" : String).data ++ (s ++ ts.data ++ t) := by rw [h4, ← hst]
        _ = ("tmp_" : String).data ++ s ++ ts.data ++ t := by
            simp [List.append_assoc]
    · rintro ⟨a, b, hab⟩
      have hd : name.data
          = ("tmp_" : String).data ++ (a.data ++ (ts.data ++ b.data)) := by
        rw [hab]
        simp [str_data_append, List.append_assoc]
      have hlen : (("tmp_" : String).data).length = 4 := by decide
      constructor
      · rw [hd, ← hlen, List.take_left]
      · rw [hd, ← hlen, List.drop_left]
        exact ⟨a.data, b.data, by simp [List.append_assoc]⟩
  · rintro ts name ⟨a, b, rfl⟩
    constructor
    · exact ⟨a.data ++ ts.data ++ b.data, by simp [str_data_append, List.append_assoc]⟩
    · exact ⟨("tmp_" : String).data ++ a.data, b.data,
        by simp [str_data_append, List.append_assoc]⟩
  · intro cfg st h
    unfold delete_intermediary_data
    rw [if_pos h]
    exact foldl_engineDeleteName_trace _ _

/-- C10 witness: cleanup on a concrete persistent-workspace state deletes
exactly the wildcard matches. -/
theorem C10_intermediary_naming_witness :
    (delete_intermediary_data cfgC4b stInit).trace
      = stInit.trace ++ (stInit.ws.filter
          (fun nm => globMatch cfgC4b.timestamp nm)).map Event.deleteData :=
  C10_intermediary_naming.2.2.2 cfgC4b stInit (by decide)

/-- C9 witness: the plan categories of a concrete one-element listing are
that listing. -/
theorem C9_amended_witness :
    (create_parameter_dictionary [Value.text ("A")] ts0).map Plan.category
      = [Value.text ("A")] :=
  C9_amended.2.2 [Value.text ("A")] ts0
